import Mathlib

/-!
# Verification of the better-aave deposit-orchestration core

Shallow embedding of the deposit-orchestration logic of the repository:
* `src/unnamed/part_000` — the `useAaveDeposit` hook: error classifier
  (`parseError`), catalog resolver (`findTokenWithChain`), parameter builder
  (`buildExecuteParams`), simulation driver (`simulateDeposit`) and execution
  driver (`executeDeposit`);
* `src/src/modules/dashboard/lists/SupplyAssetsList/ExecuteModal.tsx` — the
  modal's debounce / timer / delivery state machine and the amount-input
  handler (`handleChange`).

JavaScript strings are Lean `String`s, JS `bigint` is `Int`/`Nat`, thrown JS
values are an explicit `ErrVal` type, async engine calls are environment
fields of type `Except ErrVal _` (the value the `await` either returns or
throws), and React state cells are explicit state-record fields threaded
through the functions.  JS `number` values that only flow into display fields
(fiat estimates) are modelled as `ℚ` produced by environment-supplied
collaborator functions; no claim depends on their values.
-/

namespace BetterAave

/-! ## Thrown JS values and the error classifier (part_000 lines 15-67) -/

/-- A JavaScript throwable as `parseError` discriminates it: either an
`Error` instance carrying a `message`, or any other (non-`Error`) value. -/
inductive ErrVal where
  | error (message : String)
  | nonError
deriving DecidableEq, Repr

/-- The `{ type, message }` record returned by `parseError`. -/
structure ParsedError where
  type : String
  message : String
deriving DecidableEq, Repr

/-- JS `String.prototype.includes`: substring containment, as a scan over
every start offset. -/
def includesStr (s sub : String) : Bool :=
  (List.range (s.toList.length + 1)).any (fun i => sub.toList.isPrefixOf (s.toList.drop i))

/-- Embedding of `parseError` (part_000 lines 46-67): priority pattern match
on the thrown value's message. -/
def parseError (e : ErrVal) : ParsedError :=
  match e with
  | .error msg =>
    if includesStr msg "rejected" || includesStr msg "denied" then
      { type := "REJECTED", message := "Transaction rejected by user" }
    else if includesStr msg "errUnknownField" || includesStr msg "tx parse error" ||
        includesStr msg "Broadcasting transaction failed" then
      { type := "SDK_ERROR", message := "SDK error - check balances and try again" }
    else if includesStr msg "insufficient" then
      { type := "INSUFFICIENT", message := "Insufficient balance" }
    else
      { type := "GENERAL", message := msg }
  | .nonError => { type := "UNKNOWN", message := "Unknown error occurred" }

/-! ## Supported-chains catalog and the resolver (part_000 lines 86-101) -/

/-- A token entry of the supported-chains catalog (`chain.tokens[i]`). -/
structure NexusToken where
  contractAddress : String
  symbol : String
  name : String
  decimals : Nat
deriving DecidableEq, Repr

/-- A chain entry of the supported-chains catalog. -/
structure NexusChain where
  id : Nat
  tokens : List NexusToken
deriving DecidableEq, Repr

/-- JS `a.toLowerCase() === b.toLowerCase()`: characterwise lowercasing, then
equality; the addresses compared are ASCII hex strings, for which
`Char.toLower` agrees with JS. -/
def lowerEq (a b : String) : Bool :=
  a.toList.map Char.toLower == b.toList.map Char.toLower

/-- Embedding of `findTokenWithChain` (part_000 lines 86-101): if the catalog
has not loaded, throw `'Supported chains and tokens not loaded'`; otherwise
scan the chains in order and return the first chain whose token list contains
the address case-insensitively (with the first such token); if none does,
throw `'Token not found for address: ...'`.  Thrown errors are the `.error`
side of the `Except`. -/
def findTokenWithChain (catalog : Option (List NexusChain)) (address : String) :
    Except ErrVal (NexusChain × NexusToken) :=
  match catalog with
  | none => .error (.error "Supported chains and tokens not loaded")
  | some chains =>
    match chains.findSome? (fun chain =>
        (chain.tokens.find? (fun t => lowerEq t.contractAddress address)).map
          (fun t => (chain, t))) with
    | some p => .ok p
    | none => .error (.error ("Token not found for address: " ++ address))

/-! ## Base-unit conversion: viem's `parseUnits`

`buildExecuteParams` (part_000 line 109) converts the human amount string
with `parseUnits(depositAmount, decimals)` from the `viem` dependency.  That
library function is embedded here, numerically: it validates the string
against `^(-?)([0-9]*)\.?([0-9]*)$` (throwing on mismatch, the `none` case
below), splits integer and fraction parts, trims trailing fraction zeros,
and then, when the fraction is longer than `decimals`, rounds the excess
digits half-up via `Math.round` — it does not truncate.  (`Math.round` is
applied to a one-digit-point-rest decimal re-read as a float; that float
round agrees with exact half-up rounding of the decimal except when reading
the digits as a double crosses the .5 boundary, which cannot happen for the
short fractions in the claims; we embed the exact half-up rounding.) -/

/-- The regex character class `[0-9]` (code points 48-57). -/
def isDigitCh (c : Char) : Bool :=
  48 ≤ c.toNat && c.toNat ≤ 57

/-- Numeric value of a big-endian digit string, as JS `BigInt` reads it. -/
def digitsToNat (ds : List Char) : Nat :=
  ds.foldl (fun a c => a * 10 + (c.toNat - 48)) 0

/-- Drop trailing `'0'` characters (viem's `fraction.replace(/(0+)$/, '')`). -/
def trimTrailingZeros (ds : List Char) : List Char :=
  (ds.reverse.dropWhile (fun c => c = '0')).reverse

/-- Split a character list at the first `'.'` (JS `value.split('.')`, with
`none` meaning the string had no dot). -/
def splitOnDot (l : List Char) : List Char × Option (List Char) :=
  match l.span (fun c => c ≠ '.') with
  | (pre, []) => (pre, none)
  | (pre, _ :: post) => (pre, some post)

/-- The numeric core of viem's `parseUnits`, after the input has been split
into integer value `i`, trimmed-fraction value `fNum` of digit-length `L`,
for a token with `d` decimals.  The digit-string manipulations of the source
(`slice`, carry into the integer part via `BigInt(integer) + 1n`, final
re-concatenation `BigInt(integer ++ fraction)`) amount to this arithmetic on
the denoted values. -/
def roundedUnits (i fNum L d : Nat) : Nat :=
  if d = 0 then
    -- `Math.round(Number('.' ++ fraction)) === 1`: NaN for an empty
    -- fraction, otherwise 1 exactly when the fraction denotes ≥ 1/2
    if 0 < L ∧ 10 ^ L ≤ 2 * fNum then i + 1 else i
  else if d < L then
    -- keep the first `d` fraction digits and round half-up on the rest
    -- (`Math.round` of the digit at position d, point, remaining digits),
    -- carrying into the integer part when the fraction overflows
    i * 10 ^ d + fNum / 10 ^ (L - d) +
      (if 10 ^ (L - d) ≤ 2 * (fNum % 10 ^ (L - d)) then 1 else 0)
  else
    -- fraction fits: pad with zeros to exactly d digits
    i * 10 ^ d + fNum * 10 ^ (d - L)

/-- Embedding of viem's `parseUnits value decimals`: `none` models the thrown
`InvalidDecimalNumberError` (the `^(-?)([0-9]*)\.?([0-9]*)$` validation),
`some n` the returned `bigint`.  Mirrors the source: split at the dot, strip
a leading `'-'` from the integer part, trim trailing fraction zeros, then
compute the base units with `roundedUnits`. -/
def parseUnits (value : String) (decimals : Nat) : Option Int :=
  let (integer0, fracOpt) := splitOnDot value.toList
  let neg : Bool := integer0.head? = some '-'
  let integer := if neg then integer0.tail else integer0
  let fracOk : Bool := match fracOpt with
    | none => true
    | some f => f.all isDigitCh
  if integer.all isDigitCh && fracOk then
    let fraction0 : List Char := match fracOpt with | none => ['0'] | some f => f
    let fraction := trimTrailingZeros fraction0
    let n := roundedUnits (digitsToNat integer) (digitsToNat fraction) fraction.length decimals
    some (if neg then -(n : Int) else (n : Int))
  else
    none

/-- Spec-side: a string of digits with at most one decimal point — the
pattern `^\d*\.?\d*$` of `handleChange` and of viem's validation, restricted
to non-negative numbers. -/
def decStrOk (s : String) : Bool :=
  let (integer, fracOpt) := splitOnDot s.toList
  integer.all isDigitCh && (match fracOpt with
    | none => true
    | some f => f.all isDigitCh)

/-- Spec-side: the rational value denoted by a non-negative decimal string. -/
def decStrVal (s : String) : ℚ :=
  let (integer, fracOpt) := splitOnDot s.toList
  let f : List Char := match fracOpt with | none => [] | some f => f
  (digitsToNat integer : ℚ) + (digitsToNat f : ℚ) / 10 ^ f.length

/-- Spec-side: the fractional digits of a decimal string, as written. -/
def fracDigits (s : String) : List Char :=
  match (splitOnDot s.toList).2 with
  | none => []
  | some f => f

/-! ## Deposit parameter builder (part_000 lines 103-125) -/

/-- The object returned by `buildExecuteParams`: destination pool contract,
the arguments ABI-encoded into the `supply` calldata (encoding itself is the
opaque `encodeFunctionData`; we record the encoded arguments), the native
value, and the approval descriptor. -/
structure ExecuteParams where
  -- the source names this field `to`; that is a reserved token in Lean
  toContract : String
  dataAsset : String
  dataAmount : Int
  dataOnBehalfOf : String
  dataReferralCode : Nat
  value : Int
  approvalToken : String
  approvalAmount : Int
  approvalSpender : String
deriving DecidableEq, Repr

/-- The environment a deposit request runs in: the singleton collaborators of
the hook (`nexusSDK` presence, connected wallet address, supported-chains
catalog) plus the request parameters (`depositAmount`, `assetAddress`) and
the market's pool address (`marketsData[market].addresses.LENDING_POOL`). -/
structure DepositEnv where
  sdkPresent : Bool
  address : Option String
  catalog : Option (List NexusChain)
  assetAddress : String
  depositAmount : String
  poolAddress : String

/-- Embedding of `buildExecuteParams` (part_000 lines 103-125).  Throws
`'Wallet not connected'` without a wallet; resolves the asset (propagating the
resolver's errors); converts the amount with `parseUnits` (whose validation
error propagates as a thrown error); then assembles the call spec.  The
source's `if (!tokenDeets || !tokenDeets.token)` guard is dead code — the
resolver either returns a chain/token pair or throws — and has no residue
here. -/
def buildExecuteParams (env : DepositEnv) : Except ErrVal ExecuteParams :=
  match env.address with
  | none => .error (.error "Wallet not connected")
  | some addr =>
    match findTokenWithChain env.catalog env.assetAddress with
    | .error e => .error e
    | .ok (_, token) =>
      match parseUnits env.depositAmount token.decimals with
      | none => .error (.error ("Number " ++ env.depositAmount ++ " is not a valid decimal number."))
      | some amountWei =>
        .ok { toContract := env.poolAddress
              dataAsset := env.assetAddress
              dataAmount := amountWei
              dataOnBehalfOf := addr
              dataReferralCode := 0
              value := 0
              approvalToken := token.symbol
              approvalAmount := amountWei
              approvalSpender := env.poolAddress }

/-! ## Execution driver (part_000 lines 203-259) -/

/-- The engine's `bridgeAndExecute` response object. -/
structure BridgeExecuteResult where
  executeTransactionHash : Option String
  executeExplorerUrl : Option String
deriving DecidableEq, Repr

/-- JS truthiness of an optional string (`if (result.executeTransactionHash)`):
absent and empty strings are falsy. -/
def truthyStr : Option String → Bool
  | some h => h != ""
  | none => false

/-- The `AaveDepositResult` record (part_000 lines 15-20).  Its only fields
are `success`, `error?`, `txHash?`, `explorerUrl?`. -/
structure AaveDepositResult where
  success : Bool
  error : Option String
  txHash : Option String
  explorerUrl : Option String
deriving DecidableEq, Repr

/-- Embedding of `executeDeposit` (part_000 lines 203-259), projected onto
its returned `AaveDepositResult` (the loading flag, step captions and toasts
it also sets are presentation).  `engine` is the value of
`await nexusSDK.bridgeAndExecute(params)`: `.ok` a response, `.error` a
throw.  Any error thrown inside the `try` (resolver, builder, engine) lands
in the `catch`, which classifies it and returns its classified message. -/
def executeDeposit (env : DepositEnv) (engine : Except ErrVal BridgeExecuteResult) :
    AaveDepositResult :=
  if ¬ (env.sdkPresent ∧ env.address.isSome) then
    { success := false, error := some "SDK not initialized", txHash := none, explorerUrl := none }
  else
    match buildExecuteParams env with
    | .error e =>
      { success := false, error := some (parseError e).message, txHash := none, explorerUrl := none }
    | .ok _ =>
      match findTokenWithChain env.catalog env.assetAddress with
      | .error e =>
        { success := false, error := some (parseError e).message, txHash := none,
          explorerUrl := none }
      | .ok _ =>
        match engine with
        | .error e =>
          { success := false, error := some (parseError e).message, txHash := none,
            explorerUrl := none }
        | .ok result =>
          if truthyStr result.executeTransactionHash then
            { success := true, error := none, txHash := result.executeTransactionHash,
              explorerUrl := result.executeExplorerUrl }
          else
            { success := false, error := some "No transaction hash returned", txHash := none,
              explorerUrl := none }

/-! ## Simulation driver (part_000 lines 127-201) -/

/-- The `executeSimulation` leg of the engine's simulation response; only its
`gasFee` is read (part_000 line 165), as a base-unit integer. -/
structure ExecSimulation where
  gasFee : Nat
deriving DecidableEq, Repr

/-- The `bridgeSimulation` leg; only `intent.fees.total` is read
(part_000 line 176). -/
structure BridgeSimulation where
  intentFeesTotal : String
deriving DecidableEq, Repr

/-- The engine's `BridgeAndExecuteSimulationResult`, restricted to the legs
the hook reads; either leg may be absent. -/
structure BExSimResult where
  executeSimulation : Option ExecSimulation
  bridgeSimulation : Option BridgeSimulation
deriving DecidableEq, Repr

/-- `CHAIN_METADATA[chainId].nativeCurrency` (part_000 lines 151-153). -/
structure NativeCurrency where
  symbol : String
  decimals : Nat

/-- The `SimulationResult` summary stored by a successful simulation
(part_000 lines 22-29 and 180-188).  The fiat figures are handed over from
the collaborators as rationals. -/
structure SimulationSummary where
  bridgeFee : ℚ
  executionGas : String
  gasUsd : ℚ
  totalCost : String
  destinationAmount : String
  simulation : BExSimResult

/-- The hook state cells `simulateDeposit` touches, plus the toast log its
user-visible messages go to. -/
structure SimState where
  currentStep : String
  simulation : Option SimulationSummary
  multiStepResult : Option BExSimResult
  isSimulating : Bool
  toasts : List String

/-- The collaborators `simulateDeposit` consults beyond `DepositEnv`: the
engine's simulate response (the value `await nexusSDK.simulateBridgeAndExecute`
returns or throws), the chain-metadata table, the SDK formatting utilities,
JS `Number.parseFloat` and the fiat-value lookup. -/
structure SimCollab where
  engine : Except ErrVal BExSimResult
  nativeCurrencyOf : Nat → NativeCurrency
  formatTokenBalance : Nat → NativeCurrency → String
  formatUnits : Nat → Nat → String
  parseFloat : String → ℚ
  getFiatValue : ℚ → String → ℚ
  numToString : ℚ → String

/-- Embedding of `simulateDeposit` (part_000 lines 127-201).  Returns the
boolean the promise resolves with together with the updated hook state.
The `try`/`catch`/`finally` shape: any thrown error is classified, its
message toasted and `false` returned; `isSimulating` is cleared on every
exit path past the guard. -/
def simulateDeposit (env : DepositEnv) (c : SimCollab) (st : SimState) : Bool × SimState :=
  if ¬ (env.sdkPresent ∧ env.address.isSome) then
    (false, { st with toasts := st.toasts ++ ["Nexus SDK not initialized or wallet not connected"] })
  else
    let st1 := { st with isSimulating := true, currentStep := "Simulating transaction..." }
    -- the try block; a thrown error e lands in the catch:
    -- toast (parseError e).message, clear the step caption, finally clear
    -- isSimulating, resolve false
    let caught := fun (e : ErrVal) (s : SimState) =>
      (false, { s with toasts := s.toasts ++ [(parseError e).message],
                       currentStep := "", isSimulating := false })
    match findTokenWithChain env.catalog env.assetAddress with
    | .error e => caught e st1
    | .ok (chain, token) =>
      match buildExecuteParams env with
      | .error e => caught e st1
      | .ok _ =>
        match parseUnits env.depositAmount token.decimals with
        | none =>
          caught (.error ("Number " ++ env.depositAmount ++ " is not a valid decimal number.")) st1
        | some _ =>
          match c.engine with
          | .error e => caught e st1
          | .ok sim =>
            let st2 := { st1 with multiStepResult := some sim }
            let native := c.nativeCurrencyOf chain.id
            match sim.executeSimulation with
            | none =>
              (false, { st2 with toasts := st2.toasts ++ ["Simulation failed - check console for details"],
                                 currentStep := "", isSimulating := false })
            | some exec =>
              let st3 :=
                if sim.bridgeSimulation.isNone then
                  { st2 with toasts := st2.toasts ++ ["No bridging needed - funds already on destination chain"] }
                else st2
              let gasFormatted := c.formatTokenBalance exec.gasFee native
              let gasUnits := c.parseFloat (c.formatUnits exec.gasFee native.decimals)
              let gasUsd := c.getFiatValue gasUnits native.symbol
              let bridgeUsd : ℚ :=
                match sim.bridgeSimulation with
                | some bridge => c.getFiatValue (c.parseFloat bridge.intentFeesTotal) token.name
                | none => 0
              let summary : SimulationSummary :=
                { bridgeFee := bridgeUsd
                  executionGas := gasFormatted
                  gasUsd := gasUsd
                  totalCost := c.numToString (bridgeUsd + gasUsd)
                  destinationAmount := env.depositAmount
                  simulation := sim }
              (true,
                { st3 with
                    simulation := some summary
                    currentStep := ""
                    isSimulating := false })

/-! ## The modal's debounce / delivery state machine (ExecuteModal.tsx)

The modal wires `handleChange`, the debounced-simulation `useCallback`
(lines 62-82), the amount `useEffect` with its timer-clearing cleanup
(lines 85-99) and the hook's async `simulateDeposit` into an event loop.  We
embed it as a step function over explicit events:

* `change v` — the user edits the input: `handleChange` filters `v` against
  `^\d*\.?\d*$`; an accepted new value is stored, React re-runs the amount
  effect (its cleanup clears any pending timer) and `debouncedSimulation`
  arms a fresh timer when `v` is non-empty, not `'0'`, and differs from
  `prevSimulationRef`;
* `fire` — the pending debounce timer expires: the callback launches
  `simulateDeposit()` only when the modal is open and the amount still
  equals the value captured when the timer was armed, recording that amount
  in `prevSimulationRef` (at launch, before any result is known);
* `deliver out` — the oldest in-flight `simulateDeposit` call resolves with
  outcome `out`, applying the hook's post-`await` effects.

The hook substate is projected onto what the ordering claims read: the
stored summary is represented by its `destinationAmount` tag (the state the
claims are about), `multiStepSet` records whether `setMultiStepResult` has
populated the multi-step result.  `launches` is the log of
`simulateDeposit()` invocations and `lastSuccess` is a ghost field recording
the amount of the last simulation that resolved successfully. -/

/-- Embedding of `handleChange` (ExecuteModal.tsx lines 116-121 and
640-644): the new input value replaces the stored amount only when it is
empty or matches `^\d*\.?\d*$`; any other input leaves the stored amount
unchanged. -/
def handleChange (amount value : String) : String :=
  if value = "" ∨ decStrOk value = true then value else amount

/-- Outcome an in-flight simulation resolves with: a summary-producing
success, an engine result lacking `executeSimulation`, or a throw. -/
inductive SimOutcome where
  | success
  | noExec
  | threw
deriving DecidableEq, Repr

/-- State of one open `ExecuteModal` flow. -/
structure ModalState where
  isOpen : Bool
  amount : String
  prevSimulation : Option String
  timer : Option String
  isDebouncing : Bool
  isSimulating : Bool
  inFlight : List String
  launches : List String
  summaryAmount : Option String
  multiStepSet : Bool
  lastSuccess : Option String
deriving DecidableEq, Repr

/-- The state `handleOpen` establishes (ExecuteModal.tsx lines 127-132, with
the refs at their initial values). -/
def openState : ModalState :=
  { isOpen := true, amount := "", prevSimulation := none, timer := none,
    isDebouncing := false, isSimulating := false, inFlight := [],
    launches := [], summaryAmount := none, multiStepSet := false,
    lastSuccess := none }

/-- Events of the modal's event loop. -/
inductive MEvent where
  | change (v : String)
  | fire
  | deliver (out : SimOutcome)
deriving DecidableEq, Repr

/-- One step of the modal state machine; see the section comment for the
source lines each branch embeds. -/
def step (s : ModalState) (e : MEvent) : ModalState :=
  match e with
  | .change v =>
    -- handleChange (lines 116-121): reject values failing the pattern
    if ¬ (v = "" ∨ decStrOk v = true) then s
    -- setAmount with an identical value: React bails out, no effect runs
    else if v = s.amount then s
    else
      -- setAmount(v); the amount effect's cleanup clears the pending timer
      let s1 := { s with amount := v, timer := none }
      -- debouncedSimulation (lines 62-82)
      if v ≠ "" ∧ v ≠ "0" ∧ s1.prevSimulation ≠ some v then
        { s1 with isDebouncing := true, timer := some v }
      else s1
  | .fire =>
    match s.timer with
    | none => s
    | some a =>
      -- the setTimeout callback (lines 73-80)
      if s.isOpen ∧ s.amount = a then
        { s with timer := none, launches := s.launches ++ [a],
                 inFlight := s.inFlight ++ [a], isSimulating := true,
                 prevSimulation := some a, isDebouncing := false }
      else
        { s with timer := none }
  | .deliver out =>
    match s.inFlight with
    | [] => s
    | a :: rest =>
      -- post-await effects of simulateDeposit for the call launched at
      -- amount a (its closed-over depositAmount); the finally clause
      -- clears isSimulating on every outcome
      let s1 := { s with inFlight := rest, isSimulating := false }
      match out with
      | .success =>
        { s1 with summaryAmount := some a, multiStepSet := true, lastSuccess := some a }
      | .noExec => { s1 with multiStepSet := true }
      | .threw => s1

/-! ## Shared helper lemmas -/

/-- `handleChange` preserves the amount-validity invariant. -/
theorem decStrOk_handleChange (a v : String) (h : decStrOk a = true) :
    decStrOk (handleChange a v) = true := by
  unfold handleChange
  split
  · rename_i hv
    rcases hv with hv | hv
    · subst hv; decide
    · exact hv
  · exact h

/-- A `findSome?` over chains none of which contains the address yields
nothing. -/
theorem findSome?_token_eq_none (chains : List NexusChain) (addr : String)
    (h : ∀ c ∈ chains, ∀ t ∈ c.tokens, lowerEq t.contractAddress addr = false) :
    chains.findSome? (fun chain =>
        (chain.tokens.find? (fun t => lowerEq t.contractAddress addr)).map
          (fun t => (chain, t))) = none := by
  induction chains with
  | nil => rfl
  | cons c cs ih =>
    rw [List.findSome?_cons]
    have hfind : c.tokens.find? (fun t => lowerEq t.contractAddress addr) = none := by
      rw [List.find?_eq_none]
      intro t ht
      simpa using h c (by simp) t ht
    rw [hfind]
    exact ih (fun c' hc' t ht => h c' (by simp [hc']) t ht)

/-- `find?` returns the first element satisfying the predicate. -/
theorem find?_append_first {α : Type} (p : α → Bool) (pre : List α) (x : α) (suf : List α)
    (h1 : ∀ y ∈ pre, p y = false) (h2 : p x = true) :
    (pre ++ x :: suf).find? p = some x := by
  induction pre with
  | nil => simp [List.find?_cons, h2]
  | cons a as ih =>
    have ha := h1 a (by simp)
    rw [List.cons_append, List.find?_cons, ha]
    exact ih (fun y hy => h1 y (by simp [hy]))

/-- `findSome?` skips a none-prefix and succeeds at the first hit. -/
theorem findSome?_append_cons {α β : Type} (f : α → Option β) (pre : List α) (x : α)
    (suf : List α) (b : β) (h1 : ∀ y ∈ pre, f y = none) (h2 : f x = some b) :
    (pre ++ x :: suf).findSome? f = some b := by
  induction pre with
  | nil => simp [List.findSome?_cons, h2]
  | cons a as ih =>
    have ha := h1 a (by simp)
    rw [List.cons_append, List.findSome?_cons, ha]
    exact ih (fun y hy => h1 y (by simp [hy]))

/-- The resolver's not-found case, shared by several claims. -/
theorem findTokenWithChain_notFound (chains : List NexusChain) (addr : String)
    (h : ∀ c ∈ chains, ∀ t ∈ c.tokens, lowerEq t.contractAddress addr = false) :
    findTokenWithChain (some chains) addr =
      .error (.error ("Token not found for address: " ++ addr)) := by
  have h2 := findSome?_token_eq_none chains addr h
  simp [findTokenWithChain, h2]

/-- Two literal strings with distinct data are distinct; stated via `data`
to compare an appended string with a literal. -/
theorem string_append_ne_of_head (pre addr other : String)
    (h : pre.toList.head? ≠ other.toList.head?) (hp : pre.toList ≠ []) :
    pre ++ addr ≠ other := by
  intro he
  apply h
  have hd : (pre ++ addr).data = pre.data ++ addr.data := String.data_append pre addr
  have : (pre ++ addr).toList.head? = other.toList.head? := by rw [he]
  rw [show (pre ++ addr).toList = pre.data ++ addr.data from hd] at this
  rw [← this]
  cases hpre : pre.data with
  | nil => exact absurd hpre hp
  | cons c cs => simp [String.toList, hpre]

/-! ## C10 — the amount-change handler admits only well-formed values -/

/-- C10: for every input string passed to the amount-change handler, the
stored amount is updated exactly when the string is empty or matches
`^\d*\.?\d*$` (`decStrOk`); any other input leaves the stored amount
unchanged; consequently every amount produced by a sequence of handler
calls from the initial empty amount is empty or a well-formed non-negative
decimal string (empty satisfies the pattern too, so the invariant is
`decStrOk`). -/
theorem handleChange_validates :
    (∀ a v : String, (v = "" ∨ decStrOk v = true) → handleChange a v = v) ∧
    (∀ a v : String, ¬ (v = "" ∨ decStrOk v = true) → handleChange a v = a) ∧
    (∀ vs : List String, decStrOk (vs.foldl handleChange "") = true) := by
  refine ⟨fun a v h => by simp [handleChange, h], fun a v h => by simp [handleChange, h], ?_⟩
  intro vs
  have inv : ∀ (vs : List String) (a : String), decStrOk a = true →
      decStrOk (vs.foldl handleChange a) = true := by
    intro vs
    induction vs with
    | nil => intro a ha; simpa using ha
    | cons v vs ih =>
      intro a ha
      exact ih (handleChange a v) (decStrOk_handleChange a v ha)
  exact inv vs "" (by decide)

/-- Witness for C10 at concrete inputs: `"12a"` is rejected and leaves the
stored amount `"1.2"` unchanged; `"1.23"` is accepted. -/
theorem handleChange_validates_witness :
    handleChange "1.2" "12a" = "1.2" ∧ handleChange "1.2" "1.23" = "1.23" ∧
    decStrOk (["1", "12a", "1.2"].foldl handleChange "") = true :=
  ⟨handleChange_validates.2.1 "1.2" "12a" (by decide),
   handleChange_validates.1 "1.2" "1.23" (Or.inr (by decide)),
   handleChange_validates.2.2 ["1", "12a", "1.2"]⟩

/-! ## C4 — the error classifier is a priority pattern match -/

/-- C4: `parseError` classifies in priority order: a message containing a
rejected/denied signature yields `REJECTED` (the spec's `Rejected`);
otherwise one of the engine failure signatures (`errUnknownField`,
`tx parse error`, `Broadcasting transaction failed`) yields `SDK_ERROR`
(the spec's `EngineError`); otherwise a message containing `insufficient`
yields `INSUFFICIENT`; any other `Error` message yields `GENERAL` with the
message preserved verbatim; a non-`Error` throwable yields `UNKNOWN`. -/
theorem parseError_priority_cases :
    (∀ msg : String, (includesStr msg "rejected" = true ∨ includesStr msg "denied" = true) →
      parseError (.error msg) = ⟨"REJECTED", "Transaction rejected by user"⟩) ∧
    (∀ msg : String, includesStr msg "rejected" = false → includesStr msg "denied" = false →
      (includesStr msg "errUnknownField" = true ∨ includesStr msg "tx parse error" = true ∨
        includesStr msg "Broadcasting transaction failed" = true) →
      parseError (.error msg) = ⟨"SDK_ERROR", "SDK error - check balances and try again"⟩) ∧
    (∀ msg : String, includesStr msg "rejected" = false → includesStr msg "denied" = false →
      includesStr msg "errUnknownField" = false → includesStr msg "tx parse error" = false →
      includesStr msg "Broadcasting transaction failed" = false →
      includesStr msg "insufficient" = true →
      parseError (.error msg) = ⟨"INSUFFICIENT", "Insufficient balance"⟩) ∧
    (∀ msg : String, includesStr msg "rejected" = false → includesStr msg "denied" = false →
      includesStr msg "errUnknownField" = false → includesStr msg "tx parse error" = false →
      includesStr msg "Broadcasting transaction failed" = false →
      includesStr msg "insufficient" = false →
      parseError (.error msg) = ⟨"GENERAL", msg⟩) ∧
    parseError .nonError = ⟨"UNKNOWN", "Unknown error occurred"⟩ := by
  refine ⟨?_, ?_, ?_, ?_, rfl⟩
  · intro msg h
    rcases h with h | h <;> simp [parseError, h]
  · intro msg h1 h2 h
    rcases h with h | h | h <;> simp [parseError, h1, h2, h]
  · intro msg h1 h2 h3 h4 h5 h
    simp [parseError, h1, h2, h3, h4, h5, h]
  · intro msg h1 h2 h3 h4 h5 h6
    simp [parseError, h1, h2, h3, h4, h5, h6]

/-- Witness for C4 at concrete messages, one per classification case. -/
theorem parseError_priority_witness :
    parseError (.error "user rejected the request") =
      ⟨"REJECTED", "Transaction rejected by user"⟩ ∧
    parseError (.error "rpc: tx parse error") =
      ⟨"SDK_ERROR", "SDK error - check balances and try again"⟩ ∧
    parseError (.error "insufficient funds for gas") =
      ⟨"INSUFFICIENT", "Insufficient balance"⟩ ∧
    parseError (.error "something else happened") = ⟨"GENERAL", "something else happened"⟩ :=
  ⟨parseError_priority_cases.1 "user rejected the request" (Or.inl (by decide)),
   parseError_priority_cases.2.1 "rpc: tx parse error" (by decide) (by decide)
     (Or.inr (Or.inl (by decide))),
   parseError_priority_cases.2.2.1 "insufficient funds for gas" (by decide) (by decide)
     (by decide) (by decide) (by decide) (by decide),
   parseError_priority_cases.2.2.2.1 "something else happened" (by decide) (by decide)
     (by decide) (by decide) (by decide) (by decide)⟩

/-! ## C9 — resolver and builder fail fast with specific reasons -/

/-- C9: `findTokenWithChain` throws the catalog-unavailable error when the
catalog has not loaded and the not-found error when no chain's token list
contains the address; `buildExecuteParams` throws the wallet-not-connected
error when no wallet is connected; the three reasons are pairwise distinct
errors (the spec's `CatalogUnavailable`, `NotFound`, `WalletNotConnected`),
not a shared silent fallback. -/
theorem typed_failure_reasons :
    (∀ addr : String,
      findTokenWithChain none addr = .error (.error "Supported chains and tokens not loaded")) ∧
    (∀ (chains : List NexusChain) (addr : String),
      (∀ c ∈ chains, ∀ t ∈ c.tokens, lowerEq t.contractAddress addr = false) →
      findTokenWithChain (some chains) addr =
        .error (.error ("Token not found for address: " ++ addr))) ∧
    (∀ env : DepositEnv, env.address = none →
      buildExecuteParams env = .error (.error "Wallet not connected")) ∧
    (∀ addr : String,
      ("Token not found for address: " ++ addr) ≠ "Supported chains and tokens not loaded" ∧
      ("Token not found for address: " ++ addr) ≠ "Wallet not connected" ∧
      "Supported chains and tokens not loaded" ≠ "Wallet not connected") := by
  refine ⟨fun _ => rfl, findTokenWithChain_notFound, ?_, ?_⟩
  · intro env h
    simp [buildExecuteParams, h]
  · intro addr
    refine ⟨?_, ?_, by decide⟩
    · exact string_append_ne_of_head "Token not found for address: " addr
        "Supported chains and tokens not loaded" (by decide) (by decide)
    · exact string_append_ne_of_head "Token not found for address: " addr
        "Wallet not connected" (by decide) (by decide)

/-- Witness for C9: a never-loaded catalog, an absent address in a concrete
catalog, and a disconnected wallet, each with its specific reason. -/
theorem typed_failure_reasons_witness :
    findTokenWithChain none "0xAAA" =
      .error (.error "Supported chains and tokens not loaded") ∧
    findTokenWithChain (some [⟨1, [⟨"0xBBB", "DAI", "Dai", 18⟩]⟩]) "0xAAA" =
      .error (.error ("Token not found for address: " ++ "0xAAA")) ∧
    buildExecuteParams
        { sdkPresent := true, address := none, catalog := some [], assetAddress := "0xAAA",
          depositAmount := "1", poolAddress := "0xP" } =
      .error (.error "Wallet not connected") ∧
    ("Token not found for address: " ++ "0xAAA") ≠ "Wallet not connected" :=
  ⟨typed_failure_reasons.1 "0xAAA",
   typed_failure_reasons.2.1 [⟨1, [⟨"0xBBB", "DAI", "Dai", 18⟩]⟩] "0xAAA"
     (by decide),
   typed_failure_reasons.2.2.1 _ rfl,
   (typed_failure_reasons.2.2.2 "0xAAA").2.1⟩

/-! ## C3 — resolution returns the first match; ambiguity is not an error -/

/-- C3 (amended): `findTokenWithChain` scans the catalog in order and
returns the first chain whose token list contains the address
case-insensitively, with the first matching token inside that chain; when
no chain contains the address it fails with the not-found error.  No
ambiguity check is performed: an address present in several chains resolves
to the earliest one. -/
theorem resolver_first_match :
    (∀ (pre : List NexusChain) (c : NexusChain) (suf : List NexusChain) (addr : String)
        (tpre : List NexusToken) (t : NexusToken) (tsuf : List NexusToken),
      (∀ c' ∈ pre, ∀ t' ∈ c'.tokens, lowerEq t'.contractAddress addr = false) →
      c.tokens = tpre ++ t :: tsuf →
      (∀ t' ∈ tpre, lowerEq t'.contractAddress addr = false) →
      lowerEq t.contractAddress addr = true →
      findTokenWithChain (some (pre ++ c :: suf)) addr = .ok (c, t)) ∧
    (∀ (chains : List NexusChain) (addr : String),
      (∀ c ∈ chains, ∀ t ∈ c.tokens, lowerEq t.contractAddress addr = false) →
      findTokenWithChain (some chains) addr =
        .error (.error ("Token not found for address: " ++ addr))) := by
  constructor
  · intro pre c suf addr tpre t tsuf hpre htok htpre ht
    have hfind : c.tokens.find? (fun t' => lowerEq t'.contractAddress addr) = some t := by
      rw [htok]; exact find?_append_first _ tpre t tsuf htpre ht
    have hmain : (pre ++ c :: suf).findSome? (fun chain =>
        (chain.tokens.find? (fun t' => lowerEq t'.contractAddress addr)).map
          (fun t' => (chain, t'))) = some (c, t) :=
      findSome?_append_cons _ pre c suf (c, t)
        (fun c' hc' => by
          have : c'.tokens.find? (fun t' => lowerEq t'.contractAddress addr) = none := by
            rw [List.find?_eq_none]
            intro x hx
            simpa using hpre c' hc' x hx
          simp [this])
        (by rw [hfind]; rfl)
    simp [findTokenWithChain, hmain]
  · exact findTokenWithChain_notFound

/-- The two-chain catalog of the C3 counterexample: the same contract
address (up to case) appears in both chains' token lists. -/
def dupCatalog : List NexusChain :=
  [⟨1, [⟨"0xAAA", "USDC", "USD Coin", 6⟩]⟩,
   ⟨10, [⟨"0xaaa", "USDC.e", "Bridged USDC", 6⟩]⟩]

/-- C3 counterexample: the address `"0xAaa"` is contained (case-insensitively)
in the token lists of both chains of `dupCatalog`, yet resolution succeeds
with the first chain's pair instead of failing on the ambiguity. -/
theorem resolver_duplicate_address_no_error :
    ((dupCatalog.get ⟨0, by decide⟩).tokens.any
        (fun t => lowerEq t.contractAddress "0xAaa")) = true ∧
    ((dupCatalog.get ⟨1, by decide⟩).tokens.any
        (fun t => lowerEq t.contractAddress "0xAaa")) = true ∧
    findTokenWithChain (some dupCatalog) "0xAaa" =
      .ok (⟨1, [⟨"0xAAA", "USDC", "USD Coin", 6⟩]⟩, ⟨"0xAAA", "USDC", "USD Coin", 6⟩) := by
  exact ⟨by decide, by decide, by rfl⟩

/-- Witness for C3 on `dupCatalog`: the first chain wins. -/
theorem resolver_first_match_witness :
    findTokenWithChain (some dupCatalog) "0xAaa" =
      .ok (⟨1, [⟨"0xAAA", "USDC", "USD Coin", 6⟩]⟩, ⟨"0xAAA", "USDC", "USD Coin", 6⟩) ∧
    findTokenWithChain (some dupCatalog) "0xZZZ" =
      .error (.error ("Token not found for address: " ++ "0xZZZ")) :=
  ⟨resolver_first_match.1 [] ⟨1, [⟨"0xAAA", "USDC", "USD Coin", 6⟩]⟩
      [⟨10, [⟨"0xaaa", "USDC.e", "Bridged USDC", 6⟩]⟩] "0xAaa"
      [] ⟨"0xAAA", "USDC", "USD Coin", 6⟩ []
      (by intro c' hc'; simp at hc') rfl (by intro t' ht'; simp at ht') (by decide),
   resolver_first_match.2 dupCatalog "0xZZZ" (by decide)⟩

/-! ## C5 / C6 — execution outcomes -/

/-- A concrete healthy environment: SDK live, wallet connected, one-chain
catalog containing the requested asset (case-insensitively), a parseable
amount. -/
def sampleEnv : DepositEnv :=
  { sdkPresent := true, address := some "0xME",
    catalog := some [⟨1, [⟨"0xAAA", "USDC", "USD Coin", 6⟩]⟩],
    assetAddress := "0xaaa", depositAmount := "1.5", poolAddress := "0xPOOL" }

/-- C5: when the engine's `bridgeAndExecute` resolves without throwing, a
truthy `executeTransactionHash` yields `{success := true, txHash,
explorerUrl}`, and a missing (or empty) hash yields `success := false` with
the no-hash error, even though the call did not throw. -/
theorem executeDeposit_hash_decides_success (env : DepositEnv) (r : BridgeExecuteResult)
    (p : ExecuteParams) (ct : NexusChain × NexusToken)
    (hsdk : env.sdkPresent = true) (haddr : env.address.isSome = true)
    (hbuild : buildExecuteParams env = .ok p)
    (hres : findTokenWithChain env.catalog env.assetAddress = .ok ct) :
    (truthyStr r.executeTransactionHash = true →
      executeDeposit env (.ok r) =
        { success := true, error := none, txHash := r.executeTransactionHash,
          explorerUrl := r.executeExplorerUrl }) ∧
    (truthyStr r.executeTransactionHash = false →
      executeDeposit env (.ok r) =
        { success := false, error := some "No transaction hash returned", txHash := none,
          explorerUrl := none }) := by
  constructor <;> intro htr <;> simp [executeDeposit, hsdk, haddr, hbuild, hres, htr]

/-- Witness for C5: a response with a hash succeeds; a hashless response is
a failure despite the engine not throwing. -/
theorem executeDeposit_hash_witness :
    executeDeposit sampleEnv (.ok ⟨some "0xHASH", some "https://scan/tx"⟩) =
      { success := true, error := none, txHash := some "0xHASH",
        explorerUrl := some "https://scan/tx" } ∧
    executeDeposit sampleEnv (.ok ⟨none, none⟩) =
      { success := false, error := some "No transaction hash returned", txHash := none,
        explorerUrl := none } :=
  ⟨(executeDeposit_hash_decides_success sampleEnv ⟨some "0xHASH", some "https://scan/tx"⟩
      _ _ rfl rfl rfl rfl).1 rfl,
   (executeDeposit_hash_decides_success sampleEnv ⟨none, none⟩ _ _ rfl rfl rfl rfl).2 rfl⟩

/-- C6 (amended): a thrown failure during an execute attempt is classified
by `parseError` and the returned outcome is `{success := false, error :=
classified message}`; the classifier's kind is not part of the outcome
(the `AaveDepositResult` record has no kind field). -/
theorem executeDeposit_throw_classified_message (env : DepositEnv) (e : ErrVal)
    (p : ExecuteParams) (ct : NexusChain × NexusToken)
    (hsdk : env.sdkPresent = true) (haddr : env.address.isSome = true)
    (hbuild : buildExecuteParams env = .ok p)
    (hres : findTokenWithChain env.catalog env.assetAddress = .ok ct) :
    executeDeposit env (.error e) =
      { success := false, error := some (parseError e).message, txHash := none,
        explorerUrl := none } := by
  simp [executeDeposit, hsdk, haddr, hbuild, hres]

/-- C6 counterexample: no function of the returned outcome can recover the
classifier's kind, because two throwables with different kinds
(`INSUFFICIENT` for a message containing `insufficient`, `GENERAL` for the
verbatim message `"Insufficient balance"`) produce identical outcomes.  So
the outcome is not of the claimed form `{success, errorKind, errorMessage}`:
it carries only the message. -/
theorem executeDeposit_outcome_lacks_kind :
    ¬ ∃ kindOf : AaveDepositResult → String,
        ∀ e : ErrVal, kindOf (executeDeposit sampleEnv (.error e)) = (parseError e).type := by
  rintro ⟨k, hk⟩
  have h1 := hk (.error "insufficient funds")
  have h2 := hk (.error "Insufficient balance")
  have heq : executeDeposit sampleEnv (.error (.error "insufficient funds")) =
      executeDeposit sampleEnv (.error (.error "Insufficient balance")) := by decide
  rw [heq] at h1
  exact absurd (h1.symm.trans h2) (by decide)

/-- Witness for C6 as amended: a thrown user-denial produces the classified
rejection message in the outcome's `error` field. -/
theorem executeDeposit_throw_witness :
    executeDeposit sampleEnv (.error (.error "user denied transaction signature")) =
      { success := false, error := some "Transaction rejected by user", txHash := none,
        explorerUrl := none } := by
  have h := executeDeposit_throw_classified_message sampleEnv
    (.error "user denied transaction signature") _ _ rfl rfl rfl rfl
  rw [h]
  decide

/-! ## C8 — failed simulations and the hook state -/

/-- Concrete collaborators whose formatting/fiat functions are constant;
no claim depends on their values. -/
def sampleCollab (eng : Except ErrVal BExSimResult) : SimCollab :=
  { engine := eng
    nativeCurrencyOf := fun _ => ⟨"ETH", 18⟩
    formatTokenBalance := fun _ _ => "0.00042"
    formatUnits := fun _ _ => "0.00042"
    parseFloat := fun _ => 0
    getFiatValue := fun _ _ => 0
    numToString := fun _ => "0" }

/-- The hook state at mount: no summary, no multi-step result, no toasts. -/
def initialSimState : SimState :=
  { currentStep := "", simulation := none, multiStepResult := none,
    isSimulating := false, toasts := [] }

/-- An engine response whose `executeSimulation` leg is absent. -/
def noExecResponse : BExSimResult :=
  { executeSimulation := none, bridgeSimulation := some ⟨"1.0"⟩ }

/-- C8 (amended): when the simulate engine call throws, the thrown error is
classified and its message surfaced, and neither the summary nor the
multi-step result is touched by the attempt; but when the engine resolves
with a result lacking `executeSimulation`, the attempt fails with a fixed
(unclassified) message and has already stored the raw result in
`multiStepResult` — the summary alone is left unset. -/
theorem simulate_failure_state_effects (env : DepositEnv) (c : SimCollab) (st : SimState)
    (chain : NexusChain) (token : NexusToken) (p : ExecuteParams) (w : Int)
    (hsdk : env.sdkPresent = true) (haddr : env.address.isSome = true)
    (hres : findTokenWithChain env.catalog env.assetAddress = .ok (chain, token))
    (hbuild : buildExecuteParams env = .ok p)
    (hparse : parseUnits env.depositAmount token.decimals = some w) :
    (∀ e : ErrVal, c.engine = .error e →
      simulateDeposit env c st =
        (false, { st with currentStep := "", isSimulating := false,
                          toasts := st.toasts ++ [(parseError e).message] })) ∧
    (∀ sim : BExSimResult, c.engine = .ok sim → sim.executeSimulation = none →
      simulateDeposit env c st =
        (false, { st with multiStepResult := some sim, currentStep := "",
                          isSimulating := false,
                          toasts := st.toasts ++
                            ["Simulation failed - check console for details"] })) := by
  constructor
  · intro e he
    simp [simulateDeposit, hsdk, haddr, hres, hbuild, hparse, he]
  · intro sim hok hnoexec
    simp [simulateDeposit, hsdk, haddr, hres, hbuild, hparse, hok, hnoexec]

/-- C8 counterexample: a simulation attempt that fails because the engine
reported no execute simulation leaves the summary unset but has populated
the multi-step result — simulation state IS partially populated — and the
surfaced message is the fixed string, not a classified error message. -/
theorem simulate_noexec_partially_populates :
    (simulateDeposit sampleEnv (sampleCollab (.ok noExecResponse)) initialSimState).1 = false ∧
    (simulateDeposit sampleEnv (sampleCollab (.ok noExecResponse))
        initialSimState).2.simulation = none ∧
    (simulateDeposit sampleEnv (sampleCollab (.ok noExecResponse))
        initialSimState).2.multiStepResult = some noExecResponse ∧
    (simulateDeposit sampleEnv (sampleCollab (.ok noExecResponse))
        initialSimState).2.toasts = ["Simulation failed - check console for details"] :=
  ⟨rfl, rfl, rfl, rfl⟩

/-- Witness for C8 at a concrete throwing engine: the message classified
from the thrown error is surfaced and the summary and multi-step state are
untouched. -/
theorem simulate_failure_witness :
    simulateDeposit sampleEnv (sampleCollab (.error (.error "boom"))) initialSimState =
      (false,
        { initialSimState with
            currentStep := ""
            isSimulating := false
            toasts := initialSimState.toasts ++ [(parseError (.error "boom")).message] }) :=
  (simulate_failure_state_effects sampleEnv (sampleCollab (.error (.error "boom")))
      initialSimState _ _ _ _ rfl rfl rfl rfl rfl).1 (.error "boom") rfl

/-! ## C1 / C7 — ordering of debounce, launch and delivery -/

/-- A change to a valid, fresh, non-empty, non-zero amount arms a debounce
timer capturing that amount. -/
theorem step_change_arms (s : ModalState) (v : String)
    (hok : decStrOk v = true) (hne : v ≠ s.amount) (h0 : v ≠ "") (h00 : v ≠ "0")
    (hprev : s.prevSimulation ≠ some v) :
    step s (.change v) = { s with amount := v, timer := some v, isDebouncing := true } := by
  simp [step, hok, hne, h0, h00, hprev]

/-- A timer firing while the modal is open and the amount still equals the
captured one launches the simulation and records the amount as dispatched. -/
theorem step_fire_launch (s : ModalState) (a : String)
    (ht : s.timer = some a) (hopen : s.isOpen = true) (hamt : s.amount = a) :
    step s .fire =
      { s with timer := none, launches := s.launches ++ [a],
               inFlight := s.inFlight ++ [a], isSimulating := true,
               prevSimulation := some a, isDebouncing := false } := by
  simp [step, ht, hopen, hamt]

/-- C1 (amended): stale timers are discarded — a debounce timer that fires
when the modal is closed or the amount has changed since it was armed
launches nothing — but deliveries are not guarded: when an in-flight
simulation resolves successfully, its summary is applied with the amount it
was launched for, irrespective of the currently displayed amount (which the
delivery does not change and is not compared against). -/
theorem stale_timer_discarded_delivery_unguarded :
    (∀ (s : ModalState) (a : String), s.timer = some a →
      ¬ (s.isOpen = true ∧ s.amount = a) →
      step s .fire = { s with timer := none }) ∧
    (∀ (s : ModalState) (a : String) (rest : List String), s.inFlight = a :: rest →
      (step s (.deliver .success)).summaryAmount = some a ∧
      (step s (.deliver .success)).amount = s.amount) := by
  constructor
  · intro s a ht hng
    simp only [step, ht]
    rw [if_neg hng]
  · intro s a rest hf
    simp [step, hf]

/-- The C1 counterexample trace: simulate `"1.23"`, launch, change the
amount to `"5"` while the call is in flight, then the call resolves. -/
def staleTrace : List MEvent :=
  [.change "1.23", .fire, .change "5", .deliver .success]

/-- C1 counterexample: after `staleTrace` the displayed amount is `"5"` but
the delivered summary for `"1.23"` has been applied to display state (the
summary went from unset to the stale amount), contradicting the claim that
a mismatched delivery is discarded on arrival. -/
theorem stale_summary_applied_after_amount_change :
    openState.summaryAmount = none ∧
    (staleTrace.foldl step openState).amount = "5" ∧
    (staleTrace.foldl step openState).summaryAmount = some "1.23" := by
  decide

/-- Witness for C1 as amended, at concrete states: a timer armed for `"7"`
fires after the amount moved to `"9"` and launches nothing; a successful
delivery for launch amount `"1.23"` overwrites the summary even though the
amount is now `"5"`. -/
theorem stale_timer_discarded_witness :
    step { openState with timer := some "7", amount := "9" } .fire =
      { openState with timer := none, amount := "9" } ∧
    (step { openState with inFlight := ["1.23"], amount := "5" }
        (.deliver .success)).summaryAmount = some "1.23" :=
  ⟨stale_timer_discarded_delivery_unguarded.1
      { openState with timer := some "7", amount := "9" } "7" rfl (by decide),
   (stale_timer_discarded_delivery_unguarded.2
      { openState with inFlight := ["1.23"], amount := "5" } "1.23" [] rfl).1⟩

/-- C7 (amended): several amount changes within one debounce window yield
exactly one simulation launch, for the last amount, when the window
elapses; a change event either leaves the state unchanged, or only stores
the amount and clears the pending timer, or — exactly when the value is
non-empty, not `'0'` and differs from the last amount dispatched to
simulation (`prevSimulation`, recorded at launch regardless of the
outcome) — starts a debounce cycle; unchanged or empty amounts never
launch or arm anything. -/
theorem debounce_last_value_wins :
    (∀ (s : ModalState) (a b cv : String),
      s.isOpen = true →
      decStrOk a = true → decStrOk b = true → decStrOk cv = true →
      a ≠ "" → a ≠ "0" → b ≠ "" → b ≠ "0" → cv ≠ "" → cv ≠ "0" →
      a ≠ s.amount → b ≠ a → cv ≠ b →
      s.prevSimulation ≠ some a → s.prevSimulation ≠ some b →
      s.prevSimulation ≠ some cv →
      ([MEvent.change a, .change b, .change cv].foldl step s).launches = s.launches ∧
      ([MEvent.change a, .change b, .change cv, .fire].foldl step s).launches
        = s.launches ++ [cv]) ∧
    (∀ (s : ModalState) (v : String),
      step s (.change v) = s ∨
      step s (.change v) = { s with amount := v, timer := none } ∨
      (v ≠ "" ∧ v ≠ "0" ∧ s.prevSimulation ≠ some v ∧
        step s (.change v) = { s with amount := v, timer := some v, isDebouncing := true })) ∧
    (∀ (s : ModalState) (v : String), v = s.amount ∨ v = "" →
      (step s (.change v)).launches = s.launches ∧
      (step s (.change v)).inFlight = s.inFlight ∧
      ((step s (.change v)).timer = s.timer ∨ (step s (.change v)).timer = none)) := by
  refine ⟨?_, ?_, ?_⟩
  · intro s a b cv hopen hda hdb hdc ha0 ha00 hb0 hb00 hc0 hc00 haa hba hcb hpa hpb hpc
    have e1 : step s (.change a) =
        { s with amount := a, timer := some a, isDebouncing := true } :=
      step_change_arms s a hda haa ha0 ha00 hpa
    have e2 : step { s with amount := a, timer := some a, isDebouncing := true }
        (.change b) = { s with amount := b, timer := some b, isDebouncing := true } := by
      have h := step_change_arms { s with amount := a, timer := some a, isDebouncing := true }
        b hdb (by simpa using hba) hb0 hb00 (by simpa using hpb)
      simpa using h
    have e3 : step { s with amount := b, timer := some b, isDebouncing := true }
        (.change cv) = { s with amount := cv, timer := some cv, isDebouncing := true } := by
      have h := step_change_arms { s with amount := b, timer := some b, isDebouncing := true }
        cv hdc (by simpa using hcb) hc0 hc00 (by simpa using hpc)
      simpa using h
    have e4 : step { s with amount := cv, timer := some cv, isDebouncing := true } .fire =
        { s with amount := cv, timer := none, launches := s.launches ++ [cv],
                 inFlight := s.inFlight ++ [cv], isSimulating := true,
                 prevSimulation := some cv, isDebouncing := false } := by
      have h := step_fire_launch { s with amount := cv, timer := some cv, isDebouncing := true }
        cv (by simp) (by simpa using hopen) (by simp)
      simpa using h
    constructor
    · simp only [List.foldl, e1, e2, e3]
    · simp only [List.foldl, e1, e2, e3, e4]
  · intro s v
    by_cases h1 : v = "" ∨ decStrOk v = true
    · by_cases h2 : v = s.amount
      · left; simp [step, h1, h2]
      · by_cases h3 : v ≠ "" ∧ v ≠ "0" ∧ s.prevSimulation ≠ some v
        · right; right
          exact ⟨h3.1, h3.2.1, h3.2.2,
            step_change_arms s v (h1.resolve_left h3.1) h2 h3.1 h3.2.1 h3.2.2⟩
        · right; left
          simp only [step]
          rw [if_neg (not_not_intro h1), if_neg h2, if_neg h3]
    · left; simp [step, h1]
  · intro s v hv
    rcases hv with hv | hv
    · subst hv
      have : step s (.change s.amount) = s := by
        by_cases h1 : s.amount = "" ∨ decStrOk s.amount = true
        · simp [step, h1]
        · simp [step, h1]
      simp [this]
    · subst hv
      by_cases h2 : "" = s.amount
      · have : step s (.change "") = s := by simp [step, h2]
        simp [this]
      · have : step s (.change "") = { s with amount := "", timer := none } := by
          simp only [step]
          rw [if_neg (by simp), if_neg h2, if_neg (by simp)]
        simp [this]

/-- The C7 counterexample trace: `"1.23"` simulates successfully, `"5"` is
dispatched but its simulation throws, then the user types `"1.23"`
again. -/
def resimTrace : List MEvent :=
  [.change "1.23", .fire, .deliver .success, .change "5", .fire, .deliver .threw,
   .change "1.23"]

/-- C7 counterexample: at the end of `resimTrace` a debounce cycle is in
progress for `"1.23"` (timer armed, `isDebouncing`), yet `"1.23"` IS the
last successfully simulated amount — the guard compares against the last
*dispatched* amount `"5"` (recorded at launch even though that simulation
failed), not the last successful one, refuting the claim's "different from
the last successfully simulated amount" condition. -/
theorem debounce_keyed_on_launch_not_success :
    (resimTrace.foldl step openState).lastSuccess = some "1.23" ∧
    (resimTrace.foldl step openState).timer = some "1.23" ∧
    (resimTrace.foldl step openState).isDebouncing = true ∧
    (resimTrace.foldl step openState).prevSimulation = some "5" := by
  decide

/-- Witness for C7: the spec's own scenario — changes `"1"`, `"1.2"`,
`"1.23"` inside one window, then expiry — launches exactly one simulation,
for `"1.23"`. -/
theorem debounce_last_value_wins_witness :
    ([MEvent.change "1", .change "1.2", .change "1.23"].foldl step openState).launches
      = openState.launches ∧
    ([MEvent.change "1", .change "1.2", .change "1.23", .fire].foldl step openState).launches
      = openState.launches ++ ["1.23"] :=
  debounce_last_value_wins.1 openState "1" "1.2" "1.23" rfl (by decide) (by decide)
    (by decide) (by decide) (by decide) (by decide) (by decide) (by decide) (by decide)
    (by decide) (by decide) (by decide) (by decide) (by decide) (by decide)

/-! ## C2 — base-unit conversion: exactness, round-trip, rounding mode -/

theorem digitsToNat_append_char (l : List Char) (c : Char) :
    digitsToNat (l ++ [c]) = digitsToNat l * 10 + (c.toNat - 48) := by
  simp [digitsToNat, List.foldl_append]

theorem foldl_replicate_zero (z a : Nat) :
    (List.replicate z '0').foldl (fun acc c => acc * 10 + (c.toNat - 48)) a = a * 10 ^ z := by
  induction z generalizing a with
  | zero => simp
  | succ n ih =>
    rw [List.replicate_succ, List.foldl_cons]
    have h0 : '0'.toNat - 48 = 0 := by decide
    rw [h0, Nat.add_zero, ih, pow_succ]
    ring

theorem digitsToNat_append_zeros (l : List Char) (z : Nat) :
    digitsToNat (l ++ List.replicate z '0') = digitsToNat l * 10 ^ z := by
  unfold digitsToNat
  rw [List.foldl_append]
  exact foldl_replicate_zero z _

/-- Every digit string denotes a value below `10 ^ length`. -/
theorem digitsToNat_lt (l : List Char) (h : l.all isDigitCh = true) :
    digitsToNat l < 10 ^ l.length := by
  induction l using List.reverseRecOn with
  | nil => simp [digitsToNat]
  | append_singleton l c ih =>
    rw [digitsToNat_append_char]
    rw [List.all_append] at h
    have hl := ih (by simpa using (Bool.and_elim_left h))
    have hc : c.toNat ≤ 57 := by
      have := Bool.and_elim_right h
      simp [isDigitCh] at this
      exact this.2
    have hc9 : c.toNat - 48 ≤ 9 := by omega
    rw [List.length_append, List.length_singleton, pow_succ]
    have : digitsToNat l * 10 + 9 < 10 ^ l.length * 10 := by omega
    omega

/-- Trailing-zero trimming: the original digit string is the trimmed one
followed by zeros. -/
theorem trimTrailingZeros_spec (l : List Char) :
    ∃ z : Nat, l = trimTrailingZeros l ++ List.replicate z '0' := by
  refine ⟨(l.reverse.takeWhile (fun c => c = '0')).length, ?_⟩
  have hsplit := List.takeWhile_append_dropWhile (l := l.reverse) (p := fun c => c = '0')
  have hrep : l.reverse.takeWhile (fun c => c = '0') =
      List.replicate (l.reverse.takeWhile (fun c => c = '0')).length '0' := by
    rw [List.eq_replicate_length]
    intro b hb
    have := List.mem_takeWhile_imp hb
    simpa using this
  calc l = l.reverse.reverse := by rw [List.reverse_reverse]
    _ = (l.reverse.takeWhile (fun c => c = '0') ++
          l.reverse.dropWhile (fun c => c = '0')).reverse := by rw [hsplit]
    _ = trimTrailingZeros l ++ (l.reverse.takeWhile (fun c => c = '0')).reverse := by
          rw [List.reverse_append]; rfl
    _ = trimTrailingZeros l ++
          List.replicate (l.reverse.takeWhile (fun c => c = '0')).length '0' := by
          congr 1
          conv_lhs => rw [hrep]
          simp

/-- Floor of `k + R/q + 1/2` for `0 ≤ R < q`: `k`, plus one exactly when
`R/q ≥ 1/2`. -/
theorem floor_add_frac_half (k : ℤ) (R q : Nat) (hq : 0 < q) (hR : R < q) :
    ⌊(k : ℚ) + (R : ℚ) / (q : ℚ) + 1 / 2⌋ = k + (if q ≤ 2 * R then 1 else 0) := by
  have hq' : (0 : ℚ) < (q : ℚ) := by exact_mod_cast hq
  have hRq : (R : ℚ) < (q : ℚ) := by exact_mod_cast hR
  rw [add_assoc, Int.floor_int_add]
  congr 1
  by_cases h : q ≤ 2 * R
  · rw [if_pos h]
    rw [Int.floor_eq_iff]
    constructor
    · have : (q : ℚ) ≤ 2 * (R : ℚ) := by exact_mod_cast h
      have hhalf : (1 : ℚ) / 2 ≤ (R : ℚ) / (q : ℚ) := by
        rw [div_le_div_iff₀ (by norm_num) hq']
        linarith
      push_cast
      linarith
    · have hlt : (R : ℚ) / (q : ℚ) < 1 := (div_lt_one hq').mpr hRq
      push_cast
      linarith
  · rw [if_neg h]
    rw [Int.floor_eq_iff]
    constructor
    · have hnn : (0 : ℚ) ≤ (R : ℚ) / (q : ℚ) := by positivity
      push_cast
      linarith
    · have h2 : 2 * R < q := by omega
      have : 2 * (R : ℚ) < (q : ℚ) := by exact_mod_cast h2
      have hlt : (R : ℚ) / (q : ℚ) < 1 / 2 := by
        rw [div_lt_div_iff₀ hq' (by norm_num)]
        linarith
      push_cast
      linarith

/-- The numeric core of `parseUnits` computes the half-up rounding of
`value * 10 ^ d`. -/
theorem roundedUnits_eq_floor (i fNum L d : Nat) (hf : fNum < 10 ^ L) :
    ((roundedUnits i fNum L d : Nat) : ℤ) =
      ⌊((i : ℚ) + (fNum : ℚ) / 10 ^ L) * 10 ^ d + 1 / 2⌋ := by
  by_cases hd : d = 0
  · subst hd
    by_cases hL : 0 < L
    · have hx : ((i : ℚ) + (fNum : ℚ) / 10 ^ L) * 10 ^ 0 + 1 / 2 =
          ((i : ℤ) : ℚ) + (fNum : ℚ) / ((10 ^ L : Nat) : ℚ) + 1 / 2 := by
        push_cast
        ring
      rw [hx, floor_add_frac_half i fNum (10 ^ L) (by positivity) hf]
      by_cases hcond : 10 ^ L ≤ 2 * fNum
      · simp [roundedUnits, hL, hcond]
      · simp [roundedUnits, hL, hcond]
    · have hL0 : L = 0 := by omega
      subst hL0
      have hf0 : fNum = 0 := by simpa using hf
      subst hf0
      have hx : ((i : ℚ) + (0 : Nat) / 10 ^ 0) * 10 ^ 0 + 1 / 2 =
          ((i : ℤ) : ℚ) + ((0 : Nat) : ℚ) / ((1 : Nat) : ℚ) + 1 / 2 := by
        push_cast
        ring
      rw [hx, floor_add_frac_half i 0 1 (by norm_num) (by norm_num)]
      simp [roundedUnits]
  · by_cases hdL : d < L
    · -- rounding branch
      have hq : 0 < 10 ^ (L - d) := by positivity
      obtain ⟨H, R, hHR, hRlt, hHdef, hRdef⟩ :
          ∃ H R : Nat, fNum = 10 ^ (L - d) * H + R ∧ R < 10 ^ (L - d) ∧
            fNum / 10 ^ (L - d) = H ∧ fNum % 10 ^ (L - d) = R :=
        ⟨fNum / 10 ^ (L - d), fNum % 10 ^ (L - d), (Nat.div_add_mod _ _).symm,
          Nat.mod_lt _ hq, rfl, rfl⟩
      have hpow : ((10 : ℚ) ^ L) = 10 ^ d * ((10 ^ (L - d) : Nat) : ℚ) := by
        push_cast
        rw [← pow_add]
        congr 1
        omega
      have hfq : (fNum : ℚ) = ((10 ^ (L - d) : Nat) : ℚ) * (H : ℚ) + (R : ℚ) := by
        exact_mod_cast hHR
      have hx : ((i : ℚ) + (fNum : ℚ) / 10 ^ L) * 10 ^ d + 1 / 2 =
          (((i * 10 ^ d + H : Nat) : ℤ) : ℚ) +
            ((R : Nat) : ℚ) / ((10 ^ (L - d) : Nat) : ℚ) + 1 / 2 := by
        rw [hfq, hpow]
        push_cast
        have h1 : ((10 : ℚ) ^ d) ≠ 0 := by positivity
        have h2 : ((10 : ℚ) ^ (L - d)) ≠ 0 := by positivity
        field_simp
        ring
      rw [hx, floor_add_frac_half _ _ _ hq hRlt]
      have hbr : roundedUnits i fNum L d =
          i * 10 ^ d + H + (if 10 ^ (L - d) ≤ 2 * R then 1 else 0) := by
        simp [roundedUnits, hd, hdL, hHdef, hRdef]
      rw [hbr]
      by_cases hcond : 10 ^ (L - d) ≤ 2 * R
      · rw [if_pos hcond, if_pos hcond]
        push_cast
        ring
      · rw [if_neg hcond, if_neg hcond]
        push_cast
        ring
    · -- exact branch: the fraction fits in d digits
      have hL : L ≤ d := by omega
      have hpow : ((10 : ℚ) ^ d) = 10 ^ L * 10 ^ (d - L) := by
        rw [← pow_add]
        congr 1
        omega
      have hx : ((i : ℚ) + (fNum : ℚ) / 10 ^ L) * 10 ^ d + 1 / 2 =
          (((i * 10 ^ d + fNum * 10 ^ (d - L) : Nat) : ℤ) : ℚ) +
            ((0 : Nat) : ℚ) / ((1 : Nat) : ℚ) + 1 / 2 := by
        push_cast
        rw [hpow]
        have h1 : ((10 : ℚ) ^ L) ≠ 0 := by positivity
        field_simp
        ring
      rw [hx, floor_add_frac_half _ _ _ (by norm_num) (by norm_num)]
      have hbr : roundedUnits i fNum L d = i * 10 ^ d + fNum * 10 ^ (d - L) := by
        simp [roundedUnits, hd, Nat.not_lt.mpr hL]
      rw [hbr]
      simp

/-- The exact branch in ℚ: when the fraction fits, the base units are
exactly `value * 10 ^ d`. -/
theorem roundedUnits_exact (i fNum L d : Nat) (hf : fNum < 10 ^ L) (hL : L ≤ d) :
    ((roundedUnits i fNum L d : Nat) : ℚ) = ((i : ℚ) + (fNum : ℚ) / 10 ^ L) * 10 ^ d := by
  have hpow : ((10 : ℚ) ^ d) = 10 ^ L * 10 ^ (d - L) := by
    rw [← pow_add]
    congr 1
    omega
  by_cases hd : d = 0
  · subst hd
    have hL0 : L = 0 := by omega
    subst hL0
    have hf0 : fNum = 0 := by simpa using hf
    subst hf0
    simp [roundedUnits]
  · have hbr : roundedUnits i fNum L d = i * 10 ^ d + fNum * 10 ^ (d - L) := by
      simp [roundedUnits, hd, Nat.not_lt.mpr hL]
    rw [hbr]
    push_cast
    rw [hpow]
    have h1 : ((10 : ℚ) ^ L) ≠ 0 := by positivity
    field_simp
    ring

/-- Reduction of `parseUnits` once the split of the input is known and the
validity checks pass. -/
theorem parseUnits_reduce (s : String) (d : Nat) (I : List Char) (fo : Option (List Char))
    (hsp : splitOnDot s.toList = (I, fo)) (hneg : ¬ (I.head? = some '-'))
    (hI : I.all isDigitCh = true)
    (hfo : (match fo with | none => true | some f => f.all isDigitCh) = true) :
    parseUnits s d = some ((roundedUnits (digitsToNat I)
      (digitsToNat (trimTrailingZeros (match fo with | none => ['0'] | some f => f)))
      (trimTrailingZeros (match fo with | none => ['0'] | some f => f)).length d : Nat) : ℤ) := by
  have hnegb : decide (I.head? = some '-') = false := decide_eq_false hneg
  cases fo with
  | none =>
    simp only [parseUnits, hsp, hnegb, Bool.false_eq_true, if_false, hI, Bool.and_true,
      if_true]
  | some f =>
    have hfo' : f.all isDigitCh = true := hfo
    simp only [parseUnits, hsp, hnegb, Bool.false_eq_true, if_false, hI, hfo',
      Bool.and_self, if_true]

/-- Decomposition of `parseUnits` on a valid non-negative decimal string:
there are an integer value `i` and a trimmed fraction value `fNum` of digit
length `L` such that the string denotes `i + fNum/10^L` and `parseUnits`
returns `roundedUnits i fNum L d`; `L` never exceeds the written fraction
length. -/
theorem parseUnits_eq_of_decStrOk (s : String) (d : Nat) (h : decStrOk s = true) :
    ∃ i fNum L : Nat, fNum < 10 ^ L ∧
      decStrVal s = (i : ℚ) + (fNum : ℚ) / 10 ^ L ∧
      L ≤ (fracDigits s).length ∧
      parseUnits s d = some ((roundedUnits i fNum L d : Nat) : ℤ) := by
  rcases hsp : splitOnDot s.toList with ⟨I, fo⟩
  have hI : I.all isDigitCh = true := by
    have h' := h
    unfold decStrOk at h'
    rw [hsp] at h'
    exact (Bool.and_eq_true _ _).mp h' |>.1
  have hneg : ¬ (I.head? = some '-') := by
    intro hcontra
    cases I with
    | nil => simp at hcontra
    | cons c cs =>
      simp at hcontra
      subst hcontra
      have := (List.all_eq_true.mp hI) '-' (by simp)
      simp [isDigitCh] at this
  cases fo with
  | none =>
    refine ⟨digitsToNat I, 0, 0, by norm_num, ?_, by simp [fracDigits, hsp], ?_⟩
    · simp only [decStrVal, hsp]
      norm_num [digitsToNat]
    · have hr := parseUnits_reduce s d I none hsp hneg hI rfl
      simpa using hr
  | some f =>
    have hfd : f.all isDigitCh = true := by
      have h' := h
      unfold decStrOk at h'
      rw [hsp] at h'
      exact (Bool.and_eq_true _ _).mp h' |>.2
    obtain ⟨z, hz⟩ := trimTrailingZeros_spec f
    have htd : (trimTrailingZeros f).all isDigitCh = true := by
      have hfd' := hfd
      rw [hz, List.all_append] at hfd'
      exact (Bool.and_eq_true _ _).mp hfd' |>.1
    have hlt := digitsToNat_lt (trimTrailingZeros f) htd
    have hflen : f.length = (trimTrailingZeros f).length + z := by
      conv_lhs => rw [hz]
      simp
    refine ⟨digitsToNat I, digitsToNat (trimTrailingZeros f),
      (trimTrailingZeros f).length, hlt, ?_, ?_, ?_⟩
    · have hfval : digitsToNat f = digitsToNat (trimTrailingZeros f) * 10 ^ z := by
        conv_lhs => rw [hz]
        exact digitsToNat_append_zeros _ z
      simp only [decStrVal, hsp]
      rw [hfval, hflen]
      congr 1
      push_cast
      rw [pow_add]
      have hz0 : ((10 : ℚ) ^ z) ≠ 0 := by positivity
      rw [mul_comm ((10 : ℚ) ^ (trimTrailingZeros f).length) (10 ^ z)]
      rw [mul_comm ((digitsToNat (trimTrailingZeros f) : ℚ)) (10 ^ z)]
      rw [mul_div_mul_left _ _ hz0]
    · simp only [fracDigits, hsp]
      omega
    · exact parseUnits_reduce s d I (some f) hsp hneg hI hfd

/-- C2 (amended): conversion of a well-formed non-negative decimal amount
string to base units is exact integer arithmetic on the digit string: the
result is the half-up rounding of `value * 10^decimals` (viem's
`parseUnits` ROUNDS excess fractional digits, it does not truncate); and
whenever the amount has at most `decimals` fractional digits the conversion
is exact — the returned base units divided by `10^decimals` reproduce the
original value, so the round trip through the token's precision is
lossless. -/
theorem parseUnits_halfup_and_exact (s : String) (d : Nat) (h : decStrOk s = true) :
    parseUnits s d = some ⌊decStrVal s * 10 ^ d + 1 / 2⌋ ∧
    ((fracDigits s).length ≤ d →
      ∃ n : Nat, parseUnits s d = some (n : ℤ) ∧ (n : ℚ) = decStrVal s * 10 ^ d) := by
  obtain ⟨i, fNum, L, hf, hval, hLle, hpu⟩ := parseUnits_eq_of_decStrOk s d h
  refine ⟨?_, ?_⟩
  · rw [hpu, hval, roundedUnits_eq_floor i fNum L d hf]
  · intro hfr
    exact ⟨roundedUnits i fNum L d, hpu,
      by rw [hval]; exact roundedUnits_exact i fNum L d hf (le_trans hLle hfr)⟩

/-- C2 counterexample: `"1.23456789"` with a 6-decimal token converts to
1234568 base units — the half-up rounding — and not to 1234567, the base
units of the truncation `"1.234567"` asserted by the claim. -/
theorem parseUnits_rounds_not_truncates :
    parseUnits "1.23456789" 6 = some 1234568 ∧
    parseUnits "1.234567" 6 = some 1234567 ∧
    parseUnits "1.23456789" 6 ≠ some 1234567 :=
  ⟨by decide, by decide, by decide⟩

/-- Witness for C2 as amended at `"1.2345"` with 6 decimals: the conversion
equals the rounded value and, the fraction fitting the precision, is exact. -/
theorem parseUnits_halfup_witness :
    parseUnits "1.2345" 6 = some ⌊decStrVal "1.2345" * 10 ^ 6 + 1 / 2⌋ ∧
    ∃ n : Nat, parseUnits "1.2345" 6 = some (n : ℤ) ∧
      (n : ℚ) = decStrVal "1.2345" * 10 ^ 6 :=
  ⟨(parseUnits_halfup_and_exact "1.2345" 6 (by decide)).1,
   (parseUnits_halfup_and_exact "1.2345" 6 (by decide)).2 (by decide)⟩

end BetterAave
